import Mathlib

/-
Verification of the xdelegate multicast-callback container
(src/source/xdelegate.h) against its specification.

The header defines two templated structs:
  * xdelegate::thread_unsafe<T_ARGS...>  -- an ordered std::vector of callback
    entries, with two Register overloads (member function / free callable),
    NotifyAll and RemoveDelegates;
  * xdelegate::thread_safe<T_ARGS...>    -- derives from the former and wraps
    every public operation in a std::lock_guard on one std::mutex.

Shallow embedding conventions:
  * void* pointers (instance addresses and opaque handles) are modelled as
    natural numbers `Ptr`; the null pointer is 0.  Key comparison in
    RemoveDelegates is C++ pointer equality, i.e. equality on `Ptr`.
  * each Register call site generates, at bind time, one fixed trampoline
    lambda (lines 45-48 resp. 66-69 of the header).  The identity of that
    trampoline -- which member function, or which free callable, it was
    generated for -- is modelled by the inductive `Callback`; the stored
    `m_pCallback` function pointer is a value of that type.
  * the variadic argument pack T_ARGS... is modelled by one type parameter α
    (the bundled arguments); an invocation of a registered callable is
    recorded as a value of `Event α` (which callable was entered, with which
    context pointer and which arguments), and NotifyAll denotes the list of
    such invocation events, in execution order.
  * the C++ name of the first struct is thread_unsafe; it is rendered here
    as `thread_unsync` (same fields, same operations).
-/

namespace xdelegate

/-- Machine addresses and opaque handles (C++ `void*`). -/
abbrev Ptr := Nat

/-- The C++ null pointer, the default handle of the free-callable Register
overload (line 60). -/
def nullptr : Ptr := 0

/-- One invocation of a registered callable.  `memberCall m p a` records that
the member-function trampoline for method identity `m` cast its context
pointer to the class type and invoked the method on instance `p` with
arguments `a` (header lines 45-48); `freeCall c a` records that the
free-callable trampoline for callable identity `c` invoked the callable with
arguments `a`, ignoring its context pointer (header lines 66-69). -/
inductive Event (α : Type) where
  | memberCall (methodId : Nat) (classInstance : Ptr) (args : α)
  | freeCall (callableId : Nat) (args : α)
deriving DecidableEq, Repr

/-- The identity of the bind-time-generated trampoline a stored
`info::m_pCallback` function pointer points at: either the lambda generated
for a member function T_MEMBER_FUNC (line 45) or the lambda generated for a
free callable T_CALLABLE_V (line 66). -/
inductive Callback where
  | memberWrapper (methodId : Nat)
  | freeWrapper (callableId : Nat)
deriving DecidableEq, Repr

/-- Semantics of calling a stored trampoline with a context pointer and the
forwarded arguments `D.m_pCallback(D.m_pClass, Args...)`.  The member
trampoline uses the context pointer as the instance (line 47); the free
trampoline discards it (line 66, unnamed `void*` parameter). -/
def Callback.run {α : Type} : Callback → Ptr → α → Event α
  | .memberWrapper m, pClassInstance, args => .memberCall m pClassInstance args
  | .freeWrapper c, _, args => .freeCall c args

/-- One callback entry, header lines 16-22: a function pointer to a
trampoline and the context pointer (instance address or opaque handle). -/
structure info where
  m_pCallback : Callback
  m_pClass : Ptr
deriving DecidableEq, Repr

/-- The container xdelegate::thread_unsafe<T_ARGS...> (header lines 13-102):
an ordered sequence of callback entries (`std::vector<info> m_Delegates`,
line 101).  The argument-pack parameter α only influences the callback
signature, which is erased into `Callback`. -/
structure thread_unsync (α : Type) where
  m_Delegates : List info
deriving DecidableEq, Repr

/-- The default-constructed container: empty vector (line 25). -/
def thread_unsync.empty {α : Type} : thread_unsync α := ⟨[]⟩

/-- The member-function Register overload (header lines 37-52):
`m_Delegates.push_back(info{ trampoline for T_MEMBER_FUNC, &ClassInstance })`.
`methodId` is the bind-time member-function identity T_MEMBER_FUNC and
`ClassInstance` the address of the instance. -/
def thread_unsync.Register_member {α : Type} (d : thread_unsync α)
    (methodId : Nat) (ClassInstance : Ptr) : thread_unsync α :=
  ⟨d.m_Delegates ++ [⟨Callback.memberWrapper methodId, ClassInstance⟩]⟩

/-- The free-callable Register overload (header lines 59-73):
`m_Delegates.push_back(info{ trampoline for T_CALLABLE_V, pHandle })`.
`callableId` is the bind-time callable identity T_CALLABLE_V; in the source
`pHandle` defaults to nullptr (line 60). -/
def thread_unsync.Register_free {α : Type} (d : thread_unsync α)
    (callableId : Nat) (pHandle : Ptr) : thread_unsync α :=
  ⟨d.m_Delegates ++ [⟨Callback.freeWrapper callableId, pHandle⟩]⟩

/-- NotifyAll (header lines 78-84): `for (const auto& D : m_Delegates)
D.m_pCallback(D.m_pClass, Args...)`.  The method is const: it reads the
entry sequence and performs the calls; its denotation is the list of
invocation events, in sequence order. -/
def thread_unsync.NotifyAll {α : Type} (d : thread_unsync α) (args : α) :
    List (Event α) :=
  d.m_Delegates.map (fun D => D.m_pCallback.run D.m_pClass args)

/-- RemoveDelegates (header lines 89-99): the erase / remove_if idiom deletes
every entry whose `m_pClass` pointer equals `pInstance` and keeps the others
in their original relative order. -/
def thread_unsync.RemoveDelegates {α : Type} (d : thread_unsync α)
    (pInstance : Ptr) : thread_unsync α :=
  ⟨d.m_Delegates.filter (fun e => e.m_pClass != pInstance)⟩

/-- Outcome of a call in the exception-aware model.  `ok tr` : every invoked
callable returned normally, `tr` the invocation events in order.
`propagated tr e` : an exception `e` escaped the call to its caller after
the invocations `tr`.  `terminated tr e` : an exception `e` reached the
boundary of a noexcept function after the invocations `tr`, so the program
is terminated (C++ std::terminate).  In this header both the trampoline
lambdas (lines 45, 66: `constexpr noexcept`) and NotifyAll itself (line 78:
`noexcept`) are noexcept. -/
inductive CallOutcome (ε α : Type) where
  | ok (trace : List (Event α))
  | propagated (trace : List (Event α)) (err : ε)
  | terminated (trace : List (Event α)) (err : ε)
deriving DecidableEq, Repr

/-- Whether an outcome is an exception delivered to the caller. -/
def CallOutcome.isPropagated {ε α : Type} : CallOutcome ε α → Bool
  | .propagated _ _ => true
  | _ => false

/-- The NotifyAll loop in the exception-aware model.  `throws` gives, for
each invocation, the exception (if any) the underlying user callable raises
during that invocation.  A raising callable raises inside the noexcept
trampoline lambda (lines 45, 66), so the exception cannot leave the
trampoline: the program is terminated there and the remaining entries are
never reached.  Were an exception ever to escape a (non-noexcept) call made
by the loop body, NotifyAll's own `noexcept` (line 78) would equally turn it
into termination rather than propagation to the caller. -/
def notifyLoopExc {ε α : Type} (throws : Event α → Option ε) (args : α) :
    List info → CallOutcome ε α
  | [] => .ok []
  | D :: rest =>
    let ev := D.m_pCallback.run D.m_pClass args
    match throws ev with
    | some e => .terminated [ev] e
    | none =>
      match notifyLoopExc throws args rest with
      | .ok tr => .ok (ev :: tr)
      | .propagated tr e => .terminated (ev :: tr) e
      | .terminated tr e => .terminated (ev :: tr) e

/-- NotifyAll in the exception-aware model (header lines 78-84 together with
the noexcept qualifiers on lines 45, 66 and 78). -/
def thread_unsync.NotifyAllExc {ε α : Type} (d : thread_unsync α)
    (throws : Event α → Option ε) (args : α) : CallOutcome ε α :=
  notifyLoopExc throws args d.m_Delegates

/-- A registration call: either the member-function overload or the
free-callable overload, with its call-site data. -/
inductive Reg where
  | member (methodId : Nat) (classInstance : Ptr)
  | free (callableId : Nat) (pHandle : Ptr)
deriving DecidableEq, Repr

/-- The entry a registration pushes onto `m_Delegates` (lines 42-51 resp.
63-72). -/
def Reg.entry : Reg → info
  | .member m p => ⟨Callback.memberWrapper m, p⟩
  | .free c h => ⟨Callback.freeWrapper c, h⟩

/-- The invocation event the entry pushed by a registration produces when
NotifyAll reaches it with arguments `args`. -/
def Reg.event {α : Type} (r : Reg) (args : α) : Event α :=
  r.entry.m_pCallback.run r.entry.m_pClass args

/-- Perform one registration call on the container. -/
def thread_unsync.applyReg {α : Type} (d : thread_unsync α) : Reg → thread_unsync α
  | .member m p => d.Register_member m p
  | .free c h => d.Register_free c h

/-- One public operation of the container API. -/
inductive Op (α : Type) where
  | registerBound (methodId : Nat) (classInstance : Ptr)
  | registerFree (callableId : Nat) (pHandle : Ptr)
  | notifyAll (args : α)
  | removeDelegates (pInstance : Ptr)
deriving DecidableEq, Repr

/-- Effect of one public operation on a thread_unsafe container: the new
container state and the invocation events the operation performed. -/
def thread_unsync.applyOp {α : Type} (d : thread_unsync α) :
    Op α → thread_unsync α × List (Event α)
  | .registerBound m p => (d.Register_member m p, [])
  | .registerFree c h => (d.Register_free c h, [])
  | .notifyAll args => (d, d.NotifyAll args)
  | .removeDelegates p => (d.RemoveDelegates p, [])

/-- Sequential execution of a list of operations by a single caller. -/
def thread_unsync.execSeq {α : Type} (d : thread_unsync α) :
    List (Op α) → thread_unsync α × List (Event α)
  | [] => (d, [])
  | op :: ops =>
    let r := d.applyOp op
    let r' := r.1.execSeq ops
    (r'.1, r.2 ++ r'.2)

/-- The container xdelegate::thread_safe<T_ARGS...> (header lines 106-143):
derives from the unsynchronized container and adds one `mutable std::mutex
m_Mutex` (line 142), which carries no data and is modelled by `Unit`.  Every
public operation takes `std::lock_guard<std::mutex> lock(m_Mutex)` for its
whole body and forwards to the base-class implementation. -/
structure thread_safe (α : Type) extends thread_unsync α where
  m_Mutex : Unit
deriving DecidableEq, Repr

/-- thread_safe member-function Register (header lines 135-140): lock, then
forward to the base-class overload. -/
def thread_safe.Register_member {α : Type} (d : thread_safe α)
    (methodId : Nat) (ClassInstance : Ptr) : thread_safe α :=
  ⟨d.tothread_unsync.Register_member methodId ClassInstance, d.m_Mutex⟩

/-- thread_safe free-callable Register (header lines 128-133): lock, then
forward to the base-class overload. -/
def thread_safe.Register_free {α : Type} (d : thread_safe α)
    (callableId : Nat) (pHandle : Ptr) : thread_safe α :=
  ⟨d.tothread_unsync.Register_free callableId pHandle, d.m_Mutex⟩

/-- thread_safe NotifyAll (header lines 122-126): lock, then forward to the
base-class loop; the lock is held for the whole notification pass. -/
def thread_safe.NotifyAll {α : Type} (d : thread_safe α) (args : α) :
    List (Event α) :=
  d.tothread_unsync.NotifyAll args

/-- thread_safe RemoveDelegates (header lines 116-120): lock, then forward
to the base-class implementation. -/
def thread_safe.RemoveDelegates {α : Type} (d : thread_safe α)
    (pInstance : Ptr) : thread_safe α :=
  ⟨d.tothread_unsync.RemoveDelegates pInstance, d.m_Mutex⟩

/-- Effect of one public operation on a thread_safe container.  Because the
lock_guard in each method spans the whole method body -- for NotifyAll,
including the execution of every callback -- a whole operation is one
atomic step: no other thread's operation can observe or interleave with an
intermediate state of it. -/
def thread_safe.applyOp {α : Type} (d : thread_safe α) :
    Op α → thread_safe α × List (Event α)
  | .registerBound m p => (d.Register_member m p, [])
  | .registerFree c h => (d.Register_free c h, [])
  | .notifyAll args => (d, d.NotifyAll args)
  | .removeDelegates p => (d.RemoveDelegates p, [])

/-- Sequential execution of a list of operations on a thread_safe container
by a single caller. -/
def thread_safe.execSeq {α : Type} (d : thread_safe α) :
    List (Op α) → thread_safe α × List (Event α)
  | [] => (d, [])
  | op :: ops =>
    let r := d.applyOp op
    let r' := r.1.execSeq ops
    (r'.1, r.2 ++ r'.2)

/-- Result of running a schedule over a pool of threads: the remaining
per-thread operation lists, the final container state, the concatenated
invocation events, the operations in the order in which they acquired the
lock (the linearization), and the container state each executed operation
observed on entry. -/
structure SchedResult (α : Type) where
  pools : List (List (Op α))
  state : thread_safe α
  trace : List (Event α)
  lin : List (Op α)
  obs : List (thread_safe α)
deriving DecidableEq, Repr

/-- Concurrent execution of a thread_safe container.  `pools` holds each
thread's remaining list of operations (thread t performs its own calls in
program order) and `sched` is an arbitrary schedule of thread indices: at
each step the scheduled thread, if it still has a pending operation, takes
the lock and runs that whole operation to completion (one atomic
`applyOp`, which is exactly the extent of the lock_guard in the source); a
scheduled index with no pending operation does nothing. -/
def runSched {α : Type} :
    List (List (Op α)) → List Nat → thread_safe α → SchedResult α
  | pools, [], d => ⟨pools, d, [], [], []⟩
  | pools, t :: rest, d =>
    match pools[t]? with
    | some (op :: more) =>
      let r := runSched (pools.set t more) rest (d.applyOp op).1
      ⟨r.pools, r.state, (d.applyOp op).2 ++ r.trace, op :: r.lin, d :: r.obs⟩
    | some [] => runSched pools rest d
    | none => runSched pools rest d

/-- `Interleaving pools σ` : σ is a merge of all the per-thread operation
lists in `pools` that preserves each thread's own program order and
consumes every operation. -/
inductive Interleaving {α : Type} : List (List (Op α)) → List (Op α) → Prop where
  | nil (pools : List (List (Op α))) (h : ∀ p ∈ pools, p = []) :
      Interleaving pools []
  | cons (pools : List (List (Op α))) (t : Nat) (op : Op α)
      (more : List (Op α)) (σ : List (Op α))
      (hget : pools[t]? = some (op :: more))
      (htail : Interleaving (pools.set t more) σ) :
      Interleaving pools (op :: σ)

/-- The sequence of container states a serial execution presents to its
operations: the k-th operation of σ runs against the state left by the
first k operations. -/
def statesAlong {α : Type} (d : thread_safe α) : List (Op α) → List (thread_safe α)
  | [] => []
  | op :: ops => d :: statesAlong (d.applyOp op).1 ops

theorem applyReg_m_Delegates {α : Type} (d : thread_unsync α) (r : Reg) :
    (d.applyReg r).m_Delegates = d.m_Delegates ++ [r.entry] := by
  cases r <;> rfl

theorem foldl_applyReg_m_Delegates {α : Type} (regs : List Reg) :
    ∀ d : thread_unsync α,
      (regs.foldl thread_unsync.applyReg d).m_Delegates
        = d.m_Delegates ++ regs.map Reg.entry := by
  induction regs with
  | nil => intro d; simp
  | cons r rest ih =>
    intro d
    simp only [List.foldl_cons, List.map_cons, ih, applyReg_m_Delegates,
      List.append_assoc, List.singleton_append]

/-- C1: for every sequence of registrations (any mix of bound-member and
free/lambda registrations) followed by NotifyAll(args) on a thread_unsafe
delegate, each registered callable is invoked exactly once, in registration
order, with exactly the arguments args; and NotifyAll on an empty container
invokes no entry and does not fail. -/
theorem C1_register_then_notify {α : Type} (regs : List Reg) (args : α) :
    (regs.foldl thread_unsync.applyReg (thread_unsync.empty : thread_unsync α)).NotifyAll args
        = regs.map (fun r => r.event args)
  ∧ (thread_unsync.empty : thread_unsync α).NotifyAll args = []
  ∧ ∀ (ε : Type) (throws : Event α → Option ε),
      (thread_unsync.empty : thread_unsync α).NotifyAllExc throws args = CallOutcome.ok [] := by
  refine ⟨?_, rfl, fun ε throws => rfl⟩
  unfold thread_unsync.NotifyAll
  rw [foldl_applyReg_m_Delegates]
  simp only [thread_unsync.empty, List.nil_append, List.map_map]
  rfl

/-- C2: RemoveDelegates(key) removes, in one pass, exactly the entries whose
stored key equals key (pointer equality) -- all of them -- and the surviving
entries retain their relative order: no survivor matches the key, the result
is a sublist of the original sequence, and every entry value occurs in the
result exactly as often as before unless its key matches, in which case it
occurs zero times. -/
theorem C2_remove_all_and_only {α : Type} (d : thread_unsync α) (pInstance : Ptr) :
    ((d.RemoveDelegates pInstance).m_Delegates.all (fun e => e.m_pClass != pInstance)) = true
  ∧ (d.RemoveDelegates pInstance).m_Delegates.Sublist d.m_Delegates
  ∧ ∀ e : info, (d.RemoveDelegates pInstance).m_Delegates.count e
      = if e.m_pClass = pInstance then 0 else d.m_Delegates.count e := by
  unfold thread_unsync.RemoveDelegates
  refine ⟨?_, List.filter_sublist d.m_Delegates, ?_⟩
  · rw [List.all_eq_true]
    intro e he
    have he' : e ∈ List.filter (fun a : info => a.m_pClass != pInstance) d.m_Delegates := he
    exact (List.mem_filter.mp he').2
  · intro e
    by_cases he : e.m_pClass = pInstance
    · rw [if_pos he, List.count_eq_zero]
      intro hmem
      have h2 := (List.mem_filter.mp hmem).2
      simp [he] at h2
    · rw [if_neg he, List.count_filter]
      simp [he]

/-- C6: RemoveDelegates(key) on a container with no matching entry is a
no-op (the entry sequence is unchanged), and RemoveDelegates is idempotent:
a second call with the same key right after a first is a no-op for every
key and every container state. -/
theorem C6_remove_idempotent {α : Type} (d : thread_unsync α) (pInstance : Ptr) :
    (d.RemoveDelegates pInstance).RemoveDelegates pInstance = d.RemoveDelegates pInstance
  ∧ ((d.m_Delegates.all (fun e => e.m_pClass != pInstance)) = true →
      d.RemoveDelegates pInstance = d) := by
  constructor
  · cases d with
    | mk l =>
      simp only [thread_unsync.RemoveDelegates, thread_unsync.mk.injEq]
      rw [List.filter_eq_self]
      intro a ha
      exact (List.mem_filter.mp ha).2
  · intro h
    cases d with
    | mk l =>
      simp only [thread_unsync.RemoveDelegates, thread_unsync.mk.injEq]
      rw [List.filter_eq_self]
      rw [List.all_eq_true] at h
      exact h

theorem C6_witness :
    (((⟨[⟨Callback.freeWrapper 1, 3⟩]⟩ : thread_unsync Nat).m_Delegates.all
        (fun e => e.m_pClass != 5)) = true)
  ∧ (⟨[⟨Callback.freeWrapper 1, 3⟩]⟩ : thread_unsync Nat).RemoveDelegates 5
      = ⟨[⟨Callback.freeWrapper 1, 3⟩]⟩ :=
  ⟨by decide,
    (C6_remove_idempotent (⟨[⟨Callback.freeWrapper 1, 3⟩]⟩ : thread_unsync Nat) 5).2
      (by decide)⟩

/-- C7: registering a free function or lambda stores the caller-supplied
handle (null = 0 when the source default is used) as the entry's key, the
free entry's invoker produces the same invocation regardless of the stored
context pointer, and after RemoveDelegates(null) no handle-less entry (key
null) survives. -/
theorem C7_free_register_handle {α : Type} (d : thread_unsync α) (callableId : Nat)
    (pHandle p q : Ptr) (args : α) :
    (d.Register_free callableId pHandle).m_Delegates
        = d.m_Delegates ++ [⟨Callback.freeWrapper callableId, pHandle⟩]
  ∧ (Callback.freeWrapper callableId).run p args
        = (Callback.freeWrapper callableId).run q args
  ∧ ((d.RemoveDelegates nullptr).m_Delegates.all (fun e => e.m_pClass != nullptr)) = true := by
  refine ⟨rfl, rfl, ?_⟩
  unfold thread_unsync.RemoveDelegates
  rw [List.all_eq_true]
  intro e he
  have he' : e ∈ List.filter (fun a : info => a.m_pClass != nullptr) d.m_Delegates := he
  exact (List.mem_filter.mp he').2

/-- C8: keys are not unique: registering the same instance's bound member
callable twice yields two distinct entries, both fire on NotifyAll (the two
invocations appear at the end of the pass), and one RemoveDelegates call on
the instance address removes both. -/
theorem C8_duplicate_key_entries {α : Type} (d : thread_unsync α) (methodId : Nat)
    (pInst : Ptr) (args : α) :
    ((d.Register_member methodId pInst).Register_member methodId pInst).m_Delegates.length
        = d.m_Delegates.length + 2
  ∧ ((d.Register_member methodId pInst).Register_member methodId pInst).NotifyAll args
        = d.NotifyAll args
            ++ [Event.memberCall methodId pInst args, Event.memberCall methodId pInst args]
  ∧ ((d.Register_member methodId pInst).Register_member methodId pInst).RemoveDelegates pInst
        = d.RemoveDelegates pInst := by
  refine ⟨?_, ?_, ?_⟩
  · simp [thread_unsync.Register_member]
  · simp [thread_unsync.Register_member, thread_unsync.NotifyAll, Callback.run]
  · simp [thread_unsync.Register_member, thread_unsync.RemoveDelegates, List.filter_append]

/-- C9: NotifyAll is read-only with respect to the entry sequence: with no
re-entrant mutation (callbacks in this model do not touch the container, per
the claim's proviso), the entry sequence after a notifyAll operation --
number of entries, order, keys and invokers -- is identical to the sequence
before, on the thread_unsafe container and on the thread_safe one. -/
theorem C9_notify_readonly {α : Type} (d : thread_unsync α) (ds : thread_safe α) (args : α) :
    (d.applyOp (Op.notifyAll args)).1.m_Delegates = d.m_Delegates
  ∧ (ds.applyOp (Op.notifyAll args)).1.m_Delegates = ds.m_Delegates :=
  ⟨rfl, rfl⟩

/-- C10: neither Register overload nor RemoveDelegates ever invokes a
registered callable (their invocation trace is empty for every container
state and parameters), and each Register call appends exactly one entry at
the end of the sequence, leaving every previously registered entry and the
relative order unchanged. -/
theorem C10_register_remove_no_invoke {α : Type} (d : thread_unsync α)
    (methodId callableId : Nat) (pInst pHandle pKey : Ptr) :
    (d.applyOp (Op.registerBound methodId pInst)).2 = ([] : List (Event α))
  ∧ (d.applyOp (Op.registerFree callableId pHandle)).2 = ([] : List (Event α))
  ∧ (d.applyOp (Op.removeDelegates pKey)).2 = ([] : List (Event α))
  ∧ (d.applyOp (Op.registerBound methodId pInst)).1.m_Delegates
      = d.m_Delegates ++ [⟨Callback.memberWrapper methodId, pInst⟩]
  ∧ (d.applyOp (Op.registerFree callableId pHandle)).1.m_Delegates
      = d.m_Delegates ++ [⟨Callback.freeWrapper callableId, pHandle⟩] :=
  ⟨rfl, rfl, rfl, rfl, rfl⟩

theorem notifyLoopExc_firstRaise {ε α : Type} (throws : Event α → Option ε) (args : α) :
    ∀ (l : List info) (i : Nat) (ev : Event α) (e : ε),
      (l.map (fun D => D.m_pCallback.run D.m_pClass args))[i]? = some ev →
      throws ev = some e →
      (∀ j, j < i → ∀ ev',
        (l.map (fun D => D.m_pCallback.run D.m_pClass args))[j]? = some ev' →
        throws ev' = none) →
      notifyLoopExc throws args l
        = CallOutcome.terminated
            ((l.map (fun D => D.m_pCallback.run D.m_pClass args)).take (i + 1)) e := by
  intro l
  induction l with
  | nil => intro i ev e hev _ _; simp at hev
  | cons D rest ih =>
    intro i ev e hev hraise hok
    cases i with
    | zero =>
      have hev0 : D.m_pCallback.run D.m_pClass args = ev := by simpa using hev
      rw [← hev0] at hraise
      simp [notifyLoopExc, hraise]
    | succ i' =>
      have h0 : throws (D.m_pCallback.run D.m_pClass args) = none :=
        hok 0 (Nat.succ_pos i') _ (by simp)
      have hev' : (rest.map (fun D => D.m_pCallback.run D.m_pClass args))[i']? = some ev := by
        simpa using hev
      have hok' : ∀ j, j < i' → ∀ ev',
          (rest.map (fun D => D.m_pCallback.run D.m_pClass args))[j]? = some ev' →
          throws ev' = none := by
        intro j hj ev' h
        exact hok (j + 1) (Nat.succ_lt_succ hj) ev' (by simpa using h)
      have hrec := ih i' ev e hev' hraise hok'
      simp [notifyLoopExc, h0, hrec]

/-- C3 (amended): a failure raised inside a callback during NotifyAll does
not propagate to the caller -- since the trampoline lambdas and NotifyAll
are noexcept, the program is terminated -- while the remaining callbacks in
the pass are indeed skipped and the invocations already performed are
retained: if the first raising invocation of the pass is the one at index i,
the outcome is termination with exception e after exactly the first i+1
invocations. -/
theorem C3_failure_terminates {ε α : Type} (d : thread_unsync α)
    (throws : Event α → Option ε) (args : α) (i : Nat) (ev : Event α) (e : ε)
    (hev : (d.NotifyAll args)[i]? = some ev)
    (hraise : throws ev = some e)
    (hok : ∀ j, j < i → ∀ ev', (d.NotifyAll args)[j]? = some ev' → throws ev' = none) :
    d.NotifyAllExc throws args
      = CallOutcome.terminated ((d.NotifyAll args).take (i + 1)) e :=
  notifyLoopExc_firstRaise throws args d.m_Delegates i ev e hev hraise hok

theorem C3_witness :
    thread_unsync.NotifyAllExc
        (⟨[⟨Callback.freeWrapper 9, 2⟩, ⟨Callback.freeWrapper 8, 2⟩]⟩ : thread_unsync Nat)
        (fun ev => if ev = Event.freeCall 9 5 then some 2 else none) 5
      = CallOutcome.terminated [Event.freeCall 9 5] 2 := by
  have h := C3_failure_terminates
      (⟨[⟨Callback.freeWrapper 9, 2⟩, ⟨Callback.freeWrapper 8, 2⟩]⟩ : thread_unsync Nat)
      (fun ev => if ev = Event.freeCall 9 5 then some 2 else none) 5 0
      (Event.freeCall 9 5) 2 (by decide) (by decide)
      (fun j hj _ _ => absurd hj (Nat.not_lt_zero j))
  exact h

/-- C3 counterexample: the claim as stated is false on the code.  On a
container holding one registered free callable whose invocation raises
exception 3, NotifyAll does not deliver the failure to its caller: the
noexcept qualifiers make the program terminate instead, so the outcome is
`terminated`, not a propagated exception. -/
theorem C3_counterexample :
    thread_unsync.NotifyAllExc (⟨[⟨Callback.freeWrapper 7, 0⟩]⟩ : thread_unsync Nat)
        (fun _ => some (3 : Nat)) 4
      = CallOutcome.terminated [Event.freeCall 7 4] 3
  ∧ (thread_unsync.NotifyAllExc (⟨[⟨Callback.freeWrapper 7, 0⟩]⟩ : thread_unsync Nat)
        (fun _ => some (3 : Nat)) 4).isPropagated = false :=
  ⟨rfl, rfl⟩

theorem safe_applyOp_base {α : Type} (b : thread_unsync α) (u : Unit) (op : Op α) :
    thread_safe.applyOp ⟨b, u⟩ op = (⟨(b.applyOp op).1, u⟩, (b.applyOp op).2) := by
  cases op <;> rfl

/-- C4: for every sequence of operations executed by a single caller, the
thread_safe container behaves identically to the thread_unsafe one: running
the operations on the wrapper produces the same entry sequence and the same
invocation events as running them on the wrapped container. -/
theorem C4_safe_refines_base {α : Type} (ops : List (Op α)) :
    ∀ (b : thread_unsync α) (u : Unit),
      (thread_safe.execSeq ⟨b, u⟩ ops).1.tothread_unsync = (b.execSeq ops).1
    ∧ (thread_safe.execSeq ⟨b, u⟩ ops).2 = (b.execSeq ops).2 := by
  induction ops with
  | nil => intro b u; exact ⟨rfl, rfl⟩
  | cons op rest ih =>
    intro b u
    have h := ih (b.applyOp op).1 u
    simp only [thread_safe.execSeq, thread_unsync.execSeq, safe_applyOp_base] at h ⊢
    exact ⟨h.1, by rw [h.2]⟩

theorem runSched_execSeq {α : Type} (sched : List Nat) :
    ∀ (pools : List (List (Op α))) (d : thread_safe α),
      thread_safe.execSeq d (runSched pools sched d).lin
          = ((runSched pools sched d).state, (runSched pools sched d).trace)
    ∧ (runSched pools sched d).obs = statesAlong d (runSched pools sched d).lin := by
  induction sched with
  | nil => intro pools d; exact ⟨rfl, rfl⟩
  | cons t rest ih =>
    intro pools d
    cases hg : pools[t]? with
    | none => simpa [runSched, hg] using ih pools d
    | some l =>
      cases l with
      | nil => simpa [runSched, hg] using ih pools d
      | cons op more =>
        have h := ih (pools.set t more) (d.applyOp op).1
        constructor
        · simp only [runSched, hg, thread_safe.execSeq]
          rw [h.1]
        · simp only [runSched, hg, statesAlong]
          rw [h.2]

theorem runSched_interleaving {α : Type} (sched : List Nat) :
    ∀ (pools : List (List (Op α))) (d : thread_safe α),
      (∀ p ∈ (runSched pools sched d).pools, p = []) →
      Interleaving pools (runSched pools sched d).lin := by
  induction sched with
  | nil =>
    intro pools d h
    exact Interleaving.nil pools (by simpa [runSched] using h)
  | cons t rest ih =>
    intro pools d h
    cases hg : pools[t]? with
    | none =>
      have h' : ∀ p ∈ (runSched pools rest d).pools, p = [] := by
        simpa [runSched, hg] using h
      simpa [runSched, hg] using ih pools d h'
    | some l =>
      cases l with
      | nil =>
        have h' : ∀ p ∈ (runSched pools rest d).pools, p = [] := by
          simpa [runSched, hg] using h
        simpa [runSched, hg] using ih pools d h'
      | cons op more =>
        have h' : ∀ p ∈ (runSched (pools.set t more) rest (d.applyOp op).1).pools, p = [] := by
          simpa [runSched, hg] using h
        have hint := ih (pools.set t more) (d.applyOp op).1 h'
        simp only [runSched, hg]
        exact Interleaving.cons pools t op more _ hg hint

/-- C5: with the mutual-exclusion lock held for the entire duration of every
public operation (modelled by each operation being one atomic scheduler
step, which is the extent of the source's lock_guard, callbacks included),
every complete concurrent execution of per-thread operation lists is
linearizable: the lock-acquisition order is an order-preserving interleaving
of the thread programs, the final state and the emitted invocation events
are exactly those of the serial execution in that order, and every
operation observes the container state left by a complete prefix of that
order -- never a torn or partial entry list. -/
theorem C5_linearizable {α : Type} (pools : List (List (Op α))) (sched : List Nat)
    (d : thread_safe α)
    (hdone : ∀ p ∈ (runSched pools sched d).pools, p = []) :
    Interleaving pools (runSched pools sched d).lin
  ∧ thread_safe.execSeq d (runSched pools sched d).lin
      = ((runSched pools sched d).state, (runSched pools sched d).trace)
  ∧ (runSched pools sched d).obs = statesAlong d (runSched pools sched d).lin :=
  ⟨runSched_interleaving sched pools d hdone, (runSched_execSeq sched pools d).1,
    (runSched_execSeq sched pools d).2⟩

theorem C5_witness :
    (∀ p ∈ (runSched [[Op.registerFree 1 0], [Op.removeDelegates 0]] [0, 1]
        (⟨⟨[]⟩, ()⟩ : thread_safe Nat)).pools, p = [])
  ∧ Interleaving [[Op.registerFree 1 0], [Op.removeDelegates 0]]
      (runSched [[Op.registerFree 1 0], [Op.removeDelegates 0]] [0, 1]
        (⟨⟨[]⟩, ()⟩ : thread_safe Nat)).lin := by
  refine ⟨by decide, ?_⟩
  exact (C5_linearizable [[Op.registerFree 1 0], [Op.removeDelegates 0]] [0, 1]
    (⟨⟨[]⟩, ()⟩ : thread_safe Nat) (by decide)).1

end xdelegate
